import Mathlib

/-
Verification of the CanvasShaderExt pixel-transform library (src/index.js).

The image data model follows the canvas `ImageData` convention: a flat
byte sequence of RGBA quadruples, modelled as `List ℕ` holding byte
values.  Reads out of bounds yield `undefined` in JavaScript, which the
`Uint8ClampedArray` store coerces to 0; we model an out-of-bounds read
used as a byte as 0 (`getB`), and an out-of-bounds store as a no-op
(`List.set` semantics), matching typed-array behaviour.  JavaScript
numbers are modelled as exact rationals where the code only performs
rational arithmetic, and as real numbers for the HDR pipeline which
uses `Math.pow`.
-/

namespace CanvasShaderExt

/-- Byte read from a flat image buffer; an out-of-range index reads
`undefined` in JS, which every use here coerces to 0. -/
def getB (d : List ℕ) (i : ℕ) : ℕ := d.getD i 0

/-- `clamp` from src/index.js: keep a value within a range. -/
def clamp {α : Type} [LinearOrder α] (min max val : α) : α :=
  if val < min then min
  else if val > max then max
  else val

/-- `channelIndexes` from src/index.js: `{ R: 0, G: 1, B: 2, A: 3 }`.
Lookup of any other key on the JS object yields `undefined`, modelled
as `none`. -/
def channelIndexes (s : String) : Option ℕ :=
  if s = "R" then some 0
  else if s = "G" then some 1
  else if s = "B" then some 2
  else if s = "A" then some 3
  else none

/-- Coercion applied when a (possibly `undefined`) byte value is stored
into a `Uint8ClampedArray`: `undefined` becomes 0. -/
def byteOf (o : Option ℕ) : ℕ := o.getD 0

/-! ### swizzle (src/index.js lines 49-65)

`swizzleFrame` snapshots the four channel bytes into
`const swizzleMap = { R, G, B, A }` and then iterates
`Object.entries(options)`; per the comment in the source, an entry
`{G: "R"}` means the value of channel `G` (the key) is written into
channel `R` (the value).  An entry value outside R/G/B/A throws. -/

/-- The `swizzleMap` snapshot: lookup of a key in `{ R, G, B, A }`. -/
def swizzleMap (d : List ℕ) (i : ℕ) (s : String) : Option ℕ :=
  if s = "R" then some (getB d i)
  else if s = "G" then some (getB d (i + 1))
  else if s = "B" then some (getB d (i + 2))
  else if s = "A" then some (getB d (i + 3))
  else none

/-- The `for (const [source, dest] of Object.entries(options))` loop of
`swizzleFrame`, threading the mutated buffer; the snapshot `snap` is
fixed before the loop. -/
def swizzleGo (snap : String → Option ℕ) (i : ℕ) :
    List ℕ → List (String × String) → Except String (List ℕ)
  | cur, [] => Except.ok cur
  | cur, e :: rest =>
    if e.2 = "R" then swizzleGo snap i (cur.set i (byteOf (snap e.1))) rest
    else if e.2 = "G" then swizzleGo snap i (cur.set (i + 1) (byteOf (snap e.1))) rest
    else if e.2 = "B" then swizzleGo snap i (cur.set (i + 2) (byteOf (snap e.1))) rest
    else if e.2 = "A" then swizzleGo snap i (cur.set (i + 3) (byteOf (snap e.1))) rest
    else Except.error "unsupported data channel in swizzle"

/-- `swizzleFrame(data, options, i)` from src/index.js.  `options` is
the entry list of the JS options object (insertion order). -/
def swizzleFrame (d : List ℕ) (options : List (String × String)) (i : ℕ) :
    Except String (List ℕ) :=
  swizzleGo (swizzleMap d i) i d options

/-! ### unpack (src/index.js lines 407-444)

One loop over the pixels mutates four copies of the source data.  The
R/G/B outputs zero the two other colour channels and force alpha 255;
the A output copies `aImageData.data[3]` (a shared, mutated cell) into
R, G and B and forces alpha 255.  Within one iteration the three reads
of index 3 see the same value because the writes of that iteration
before them touch `4k`, `4k+1`, `4k+2` only, which differ from 3. -/

/-- One iteration of the unpack loop on the R/G/B copies: zero the two
channels at offsets `o₁ < o₂`, force alpha 255. -/
def chStep (o₁ o₂ : ℕ) (l : List ℕ) (k : ℕ) : List ℕ :=
  ((l.set (4 * k + o₁) 0).set (4 * k + o₂) 0).set (4 * k + 3) 255

/-- One iteration of the unpack loop on the A copy: write the current
value of cell 3 into the three colour bytes, then force alpha 255. -/
def aStep (l : List ℕ) (k : ℕ) : List ℕ :=
  let v := getB l 3
  (((l.set (4 * k) v).set (4 * k + 1) v).set (4 * k + 2) v).set (4 * k + 3) 255

/-- Iterate `chStep` over pixels `0, …, n-1` in order. -/
def chLoop (o₁ o₂ : ℕ) : ℕ → List ℕ → List ℕ
  | 0, l => l
  | n + 1, l => chStep o₁ o₂ (chLoop o₁ o₂ n l) n

/-- Iterate `aStep` over pixels `0, …, n-1` in order. -/
def aLoop : ℕ → List ℕ → List ℕ
  | 0, l => l
  | n + 1, l => aStep (aLoop n l) n

/-- `unpack(ctx)` from src/index.js: four copies of the image data,
transformed by one pass over the pixels, returned in R, G, B, A order.
The loop runs for `i = 0, 4, …` while `i < data.length`. -/
def unpack (d : List ℕ) : List ℕ × List ℕ × List ℕ × List ℕ :=
  let n := (d.length + 3) / 4
  (chLoop 1 2 n d, chLoop 0 2 n d, chLoop 0 1 n d, aLoop n d)

/-! ### contexts, mask, pack (src/index.js lines 304-392)

A `CanvasRenderingContext2D` is modelled by its canvas dimensions and
the flat byte buffer its `getImageData(0, 0, w, h)` returns.  The
`resize` operation scales via the external canvas `drawImage`
primitive; its pixel-level result is outside this library, so the
models below take the scaling behaviour as an explicit `resample`
argument (a context and target dimensions in, a context out). -/

/-- A canvas context: dimensions plus flat RGBA byte data. -/
structure Ctx where
  w : ℕ
  h : ℕ
  data : List ℕ

/-- The alpha-write loop of `mask`: for each pixel `k`, set the base
alpha byte to the mask byte at channel offset `ci`; an invalid channel
makes the JS index `NaN`, the read `undefined`, and the stored byte 0. -/
def maskLoop (ci : Option ℕ) (maskData : List ℕ) : ℕ → List ℕ → List ℕ
  | 0, bd => bd
  | n + 1, bd =>
    (maskLoop ci maskData n bd).set (4 * n + 3)
      (match ci with
        | some c => getB maskData (4 * n + c)
        | none => 0)

/-- `mask(base, imageMask, channel)` from src/index.js: duplicate the
mask, resize the duplicate (not the base) when dimensions differ, then
copy the designated channel of the (possibly resized) duplicate into
the alpha byte of every base pixel. -/
def maskModel (resample : Ctx → ℕ → ℕ → Ctx) (base imageMask : Ctx)
    (channel : String) : Ctx :=
  let maskDupe :=
    if base.w ≠ imageMask.w ∨ base.h ≠ imageMask.h
    then resample imageMask base.w base.h
    else imageMask
  let n := (base.data.length + 3) / 4
  { base with data := maskLoop (channelIndexes channel) maskDupe.data n base.data }

/-- An entry of the `images` argument of `pack`: a context plus its
destination-to-source channel map (the entry list of the JS object). -/
structure PackEntry where
  data : Ctx
  channels : List (String × String)

/-- `delete obj[k]` on a JS object modelled as an entry list with
unique keys. -/
def delKey (chans : List (String × String)) (k : String) :
    List (String × String) :=
  chans.filter (fun e => e.1 ≠ k)

/-- The inner `for (const channel of Object.entries(images[i].channels))`
loop of `pack`: iterate a fixed snapshot of the entries; a destination
key already claimed triggers `delete images[i].channels[channel[1]]`
(note: deletion by the source channel, `channel[1]`), otherwise the
key is appended to `packedChannels`. -/
def processClaims : List (String × String) → List (String × String) →
    List String → List (String × String) × List String
  | [], chans, pc => (chans, pc)
  | e :: rest, chans, pc =>
    if e.1 ∈ pc then processClaims rest (delKey chans e.2) pc
    else processClaims rest chans (pc ++ [e.1])

/-- The outer `for (let i = 0; i < images.length; i++)` loop of `pack`,
with in-place `splice(i, 1)` of entries left without claims (after
which `continue` still runs `i++`, as in the JS `for` statement) and
duplicate-plus-resize of entries whose dimensions differ from the
target.  The loop runs at most `images.length` more iterations past
any state, so the fuel passed by `pack` is never exhausted. -/
def packResolve (resample : Ctx → ℕ → ℕ → Ctx) (sizeX sizeY : ℕ) :
    ℕ → ℕ → List PackEntry → List String → List PackEntry
  | 0, _, imgs, _ => imgs
  | fuel + 1, i, imgs, pc =>
    match imgs[i]? with
    | none => imgs
    | some img =>
      let cp := processClaims img.channels img.channels pc
      if cp.1 = [] then
        packResolve resample sizeX sizeY fuel (i + 1) (imgs.eraseIdx i) cp.2
      else if img.data.w ≠ sizeX ∨ img.data.h ≠ sizeY then
        packResolve resample sizeX sizeY fuel (i + 1)
          (imgs.set i ⟨resample img.data sizeX sizeY, cp.1⟩) cp.2
      else
        packResolve resample sizeX sizeY fuel (i + 1)
          (imgs.set i ⟨img.data, cp.1⟩) cp.2

/-- The write phase of `pack` for one pixel `k`: for every remaining
entry, in order, and every `[to, from]` of its channel map, write the
source byte into the destination byte of the packed buffer.  An
invalid destination makes the JS index `NaN` and the typed-array write
is ignored; an invalid source reads `undefined`, stored as 0. -/
def packPixel (imgs : List PackEntry) (k : ℕ) (packed : List ℕ) : List ℕ :=
  imgs.foldl
    (fun acc img =>
      img.channels.foldl
        (fun acc2 e =>
          match channelIndexes e.1 with
          | none => acc2
          | some t =>
            acc2.set (4 * k + t)
              (match channelIndexes e.2 with
                | none => 0
                | some f => getB img.data.data (4 * k + f)))
        acc)
    packed

/-- `pack(images, sizeX, sizeY)` from src/index.js: a fresh transparent
target buffer, the claim-resolution pass, then the per-pixel write
loop over `i = 0, 4, …` while `i < packedData.data.length`. -/
def pack (resample : Ctx → ℕ → ℕ → Ctx) (images : List PackEntry)
    (sizeX sizeY : ℕ) : List ℕ :=
  let packed0 := List.replicate (sizeX * sizeY * 4) 0
  let imgs := packResolve resample sizeX sizeY (images.length + 1) 0 images []
  (List.range ((packed0.length + 3) / 4)).foldl
    (fun acc k => packPixel imgs k acc) packed0

/-! ### offset (src/index.js lines 211-244)

The context is modelled as dimensions plus a pixel accessor so the
rectangular `getImageData`/`putImageData` regions are direct function
operations.  Offsets are JavaScript numbers; the arithmetic used
(`%`, `Math.round`, multiplication) is exact on rationals. -/

/-- A context for the geometric transforms: a pixel-accessor image,
`px x y c` being channel `c` of the pixel at column `x`, row `y`. -/
structure FImg where
  w : ℕ
  h : ℕ
  px : ℕ → ℕ → ℕ → ℕ

/-- `ctx.getImageData(sx, sy, w, h)`. -/
def getRegion (c : FImg) (sx sy w h : ℕ) : FImg :=
  ⟨w, h, fun x y ch => c.px (sx + x) (sy + y) ch⟩

/-- `ctx.putImageData(p, dx, dy)`. -/
def putRegion (c : FImg) (p : FImg) (dx dy : ℕ) : FImg :=
  ⟨c.w, c.h, fun x y ch =>
    if dx ≤ x ∧ x < dx + p.w ∧ dy ≤ y ∧ y < dy + p.h
    then p.px (x - dx) (y - dy) ch
    else c.px x y ch⟩

/-- JavaScript truncation toward zero. -/
def jsTrunc (q : ℚ) : ℤ := if q < 0 then Int.ceil q else Int.floor q

/-- The JavaScript `%` operator on numbers: `a - b * trunc(a / b)`. -/
def jsFmod (a b : ℚ) : ℚ := a - b * (jsTrunc (a / b) : ℚ)

/-- `Math.round` on an exact rational: `⌊q + 1/2⌋`. -/
def jsRoundQ (q : ℚ) : ℤ := Int.floor (q + 1 / 2)

/-- `offset(ctx, offsetX, offsetY)` from src/index.js.  The offsets are
normalized with `% 1` (so only their fractional parts matter), shift
amounts are rounded fractions of the dimensions, and the buffer is cut
into regions that are re-put at swapped positions.  A zero normalized
offset in both axes leaves the context untouched. -/
def offsetModel (c : FImg) (offsetX offsetY : ℚ) : FImg :=
  let sizeX := c.w
  let sizeY := c.h
  let normalizedX := jsFmod offsetX 1
  let normalizedY := jsFmod offsetY 1
  let shiftAmountX : ℕ :=
    if normalizedX ≠ 0 then
      (jsRoundQ ((sizeX : ℚ) *
        (if normalizedX < 0 then 1 + normalizedX else normalizedX))).toNat
    else 0
  let shiftAmountY : ℕ :=
    if normalizedY ≠ 0 then
      (jsRoundQ ((sizeY : ℚ) *
        (if normalizedY < 0 then 1 + normalizedY else normalizedY))).toNat
    else 0
  if normalizedX ≠ 0 ∧ normalizedY = 0 then
    let right := getRegion c (sizeX - shiftAmountX) 0 shiftAmountX sizeY
    let left := getRegion c 0 0 (sizeX - shiftAmountX) sizeY
    putRegion (putRegion c left shiftAmountX 0) right 0 0
  else if normalizedX = 0 ∧ normalizedY ≠ 0 then
    let bottom := getRegion c 0 (sizeY - shiftAmountY) sizeX shiftAmountY
    let top := getRegion c 0 0 sizeX (sizeY - shiftAmountY)
    putRegion (putRegion c top 0 shiftAmountY) bottom 0 0
  else if normalizedX ≠ 0 ∧ normalizedY ≠ 0 then
    let bottomRight := getRegion c (sizeX - shiftAmountX) (sizeY - shiftAmountY)
      shiftAmountX shiftAmountY
    let bottomLeft := getRegion c 0 (sizeY - shiftAmountY)
      (sizeX - shiftAmountX) (sizeY - shiftAmountY)
    let topRight := getRegion c (sizeX - shiftAmountX) 0
      shiftAmountX (sizeY - shiftAmountY)
    let topLeft := getRegion c 0 0 (sizeX - shiftAmountX) (sizeY - shiftAmountY)
    putRegion (putRegion (putRegion (putRegion c topLeft shiftAmountX shiftAmountY)
      topRight 0 shiftAmountY) bottomLeft shiftAmountX 0) bottomRight 0 0
  else c

/-! ### HDR pipeline (src/index.js lines 528-634) and tint (lines 150-167)

These functions perform `Math.pow` and division, so JavaScript numbers
are modelled as real numbers and `Math.pow` on the nonnegative bases
occurring here as `Real.rpow`. -/

noncomputable section

/-- `Math.round`: `⌊x + 1/2⌋`. -/
def jsRound (x : ℝ) : ℤ := Int.floor (x + 1 / 2)

/-- The ECMAScript `ToUint8Clamp` conversion applied when a number is
stored into a `Uint8ClampedArray`: clamp to `[0, 255]`, then round
with ties to even. -/
def toUint8Clamp (x : ℝ) : ℕ :=
  let c := clamp 0 255 x
  let f := Int.floor c
  (if c - f < 1 / 2 then f
   else if 1 / 2 < c - f then f + 1
   else if 2 ∣ f then f else f + 1).toNat

/-- `lerp(a, b, t)` from src/index.js. -/
def lerp (a b t : ℝ) : ℝ := a + (b - a) * t

/-- `tint2Mult(tint)` from src/index.js: positive byte values become
ratios in `[0, 1]`, everything else 0. -/
def tint2Mult (t : ℝ) : ℝ := if t > 0 then t / 255 else 0

/-- `linearToSRGB(x)` from src/index.js. -/
def linearToSRGB (x : ℝ) : ℝ :=
  if x ≤ 0.0031308 then x * 12.92
  else 1.055 * x ^ ((1 : ℝ) / 2.4) - 0.055

/-- `sRGBToLinear(x)` from src/index.js. -/
def sRGBToLinear (x : ℝ) : ℝ :=
  if x ≤ 0.04045 then x / 12.92
  else ((x + 0.055) / 1.055) ^ (2.4 : ℝ)

/-- Tonemap curve coefficient A (src/index.js line 622). -/
def toneA : ℝ := 2.51

/-- Tonemap curve coefficient B. -/
def toneB : ℝ := 0.03

/-- Tonemap curve coefficient C. -/
def toneC : ℝ := 2.43

/-- Tonemap curve coefficient D. -/
def toneD : ℝ := 0.59

/-- Tonemap curve coefficient E. -/
def toneE : ℝ := 0.14

/-- `tonemap(x)` from src/index.js. -/
def tonemap (x : ℝ) : ℝ :=
  (x * (toneA * x + toneB)) / (x * (toneC * x + toneD) + toneE)

/-- Default for the optional `exposure` parameter of `hdrToSdr`. -/
def exposureDefault : ℝ := 1.0

/-- Default for the optional `contrast` parameter. -/
def contrastDefault : ℝ := 1.0

/-- Default for the optional `saturation` parameter. -/
def saturationDefault : ℝ := 1.0

/-- Default for the optional `highlightCompression` parameter. -/
def highlightCompressionDefault : ℝ := 1.0

/-- Default for the optional `shadowLifting` parameter. -/
def shadowLiftingDefault : ℝ := 0.0

/-- `hdrToSdr` from src/index.js: decode to linear, apply intensity and
exposure, contrast power, tonemap with highlight compression and
shadow lifting, saturation about the luminance, clamp, encode back to
sRGB, scale to bytes and round. -/
def hdrToSdr (r g b intensity exposure contrast saturation
    highlightCompression shadowLifting : ℝ) : ℤ × ℤ × ℤ :=
  let r1 := sRGBToLinear (r / 255)
  let g1 := sRGBToLinear (g / 255)
  let b1 := sRGBToLinear (b / 255)
  let r2 := r1 * (intensity * exposure)
  let g2 := g1 * (intensity * exposure)
  let b2 := b1 * (intensity * exposure)
  let r3 := r2 ^ contrast
  let g3 := g2 ^ contrast
  let b3 := b2 ^ contrast
  let r4 := tonemap (r3 * highlightCompression) + shadowLifting
  let g4 := tonemap (g3 * highlightCompression) + shadowLifting
  let b4 := tonemap (b3 * highlightCompression) + shadowLifting
  let luminance := 0.2126 * r4 + 0.7152 * g4 + 0.0722 * b4
  let r5 := luminance + saturation * (r4 - luminance)
  let g5 := luminance + saturation * (g4 - luminance)
  let b5 := luminance + saturation * (b4 - luminance)
  let r6 := clamp 0 1 r5
  let g6 := clamp 0 1 g5
  let b6 := clamp 0 1 b5
  let r7 := linearToSRGB r6
  let g7 := linearToSRGB g6
  let b7 := linearToSRGB b6
  (jsRound (r7 * 255), jsRound (g7 * 255), jsRound (b7 * 255))

/-- `tintFrame(data, r, g, b, int, i)` from src/index.js: each colour
byte is either interpolated toward its inverse (negative multiplier)
or scaled and rounded (non-negative multiplier), clamped, and stored;
when `int ≠ 1` the three freshly stored bytes are pushed through
`hdrToSdr` with intensity `int` and the optional parameters at their
defaults.  The alpha byte at `i + 3` is never written. -/
def tintFrame (d : List ℕ) (r g b int : ℝ) (i : ℕ) : List ℕ :=
  let d1 :=
    if r < 0 then
      d.set i (toUint8Clamp (clamp 0 255
        (lerp (getB d i) (255 - (getB d i : ℝ)) (tint2Mult (-r)))))
    else
      d.set i (toUint8Clamp (clamp 0 255
        ((jsRound ((getB d i : ℝ) * tint2Mult r) : ℤ) : ℝ)))
  let d2 :=
    if g < 0 then
      d1.set (i + 1) (toUint8Clamp (clamp 0 255
        (lerp (getB d1 (i + 1)) (255 - (getB d1 (i + 1) : ℝ)) (tint2Mult (-g)))))
    else
      d1.set (i + 1) (toUint8Clamp (clamp 0 255
        ((jsRound ((getB d1 (i + 1) : ℝ) * tint2Mult g) : ℤ) : ℝ)))
  let d3 :=
    if b < 0 then
      d2.set (i + 2) (toUint8Clamp (clamp 0 255
        (lerp (getB d2 (i + 2)) (255 - (getB d2 (i + 2) : ℝ)) (tint2Mult (-b)))))
    else
      d2.set (i + 2) (toUint8Clamp (clamp 0 255
        ((jsRound ((getB d2 (i + 2) : ℝ) * tint2Mult b) : ℤ) : ℝ)))
  if int ≠ 1 then
    let hdrColor := hdrToSdr (getB d3 i) (getB d3 (i + 1)) (getB d3 (i + 2)) int
      exposureDefault contrastDefault saturationDefault
      highlightCompressionDefault shadowLiftingDefault
    ((d3.set i (toUint8Clamp (hdrColor.1 : ℝ))).set (i + 1)
      (toUint8Clamp (hdrColor.2.1 : ℝ))).set (i + 2)
      (toUint8Clamp (hdrColor.2.2 : ℝ))
  else d3

/-- The per-channel transform of `tintFrame`, written in the form the
specification states it: a negative multiplier interpolates the
channel toward its inverse `255 - ch` by the fraction `|m| / 255`; a
non-negative multiplier scales the channel by `m / 255` and rounds.
Used to compare the imperative code against the specified behaviour. -/
def tintChannelSpec (ch : ℕ) (m : ℝ) : ℕ :=
  if m < 0 then
    toUint8Clamp (clamp 0 255 ((ch : ℝ) + ((255 - (ch : ℝ)) - ch) * (-m / 255)))
  else
    toUint8Clamp (clamp 0 255 ((jsRound ((ch : ℝ) * (m / 255)) : ℤ) : ℝ))

/-! ### IEEE non-finite behaviour of the HDR pipeline

The exact-real `hdrToSdr` above cannot express the NaN results the
JavaScript program produces on some extreme inputs (for example
`Math.pow` of a negative base with a fractional exponent).  The
definitions below re-model the pipeline over `FNum`: a JavaScript
number that is either a finite value (an exact real; the rounding and
overflow-to-infinity of finite IEEE arithmetic are not modelled) or
`none`, a non-finite value.  `none` conservatively covers NaN and the
infinities together: every arithmetic operation on NaN yields NaN, an
ordered comparison against NaN is false (so `none` always takes the
`else` branch of a comparison), `Math.round(NaN)` is NaN, and within
this pipeline an infinity feeds the tonemap quotient (giving NaN) or
the clamp; paths on which JavaScript would collapse a non-finite value
back to a finite one (such as `Math.pow(Infinity, negative) = 0`) are
also mapped to `none`, so a `some` output of the model is always a
finite output of the program, while `none` marks a computation that
passed through a non-finite value. -/

/-- A JavaScript number: `some x` a finite value, `none` non-finite. -/
abbrev FNum : Type := Option ℝ

/-- Addition with NaN propagation. -/
def addF : FNum → FNum → FNum
  | some a, some b => some (a + b)
  | _, _ => none

/-- Subtraction with NaN propagation. -/
def subF : FNum → FNum → FNum
  | some a, some b => some (a - b)
  | _, _ => none

/-- Multiplication with NaN propagation. -/
def mulF : FNum → FNum → FNum
  | some a, some b => some (a * b)
  | _, _ => none

/-- Division: a zero divisor yields a non-finite result (NaN for 0/0,
an infinity otherwise), and NaN propagates. -/
def divF : FNum → FNum → FNum
  | some a, some b => if b = 0 then none else some (a / b)
  | _, _ => none

open scoped Classical in
/-- `Math.pow` per the ECMAScript exponentiation cases on the values
this model represents: a NaN exponent gives NaN; an exponent 0 gives 1
for every base, NaN included; a NaN base gives NaN otherwise; a
negative base with a non-integer exponent gives NaN; base 0 with a
negative exponent gives Infinity (non-finite); the remaining cases are
the real power (`Real.rpow` equals the real value `b ^ n` for a
negative base with integer real exponent `n`, and the mathematical
power for a positive base). -/
def powF : FNum → FNum → FNum
  | _, none => none
  | none, some e => if e = 0 then some 1 else none
  | some b, some e =>
    if e = 0 then some 1
    else if b = 0 then (if 0 < e then some 0 else none)
    else if b < 0 ∧ ¬ ∃ n : ℤ, e = (n : ℝ) then none
    else some (b ^ e)

/-- `sRGBToLinear` over `FNum`: a NaN input fails the `≤` test and
reaches `Math.pow`, which returns NaN. -/
def sRGBToLinearF : FNum → FNum
  | none => none
  | some x =>
    if x ≤ 0.04045 then some (x / 12.92)
    else powF (some ((x + 0.055) / 1.055)) (some (2.4 : ℝ))

/-- `linearToSRGB` over `FNum`: a NaN input fails the `≤` test and
reaches `Math.pow`, which returns NaN. -/
def linearToSRGBF : FNum → FNum
  | none => none
  | some x =>
    if x ≤ 0.0031308 then some (x * 12.92)
    else subF (mulF (some 1.055) (powF (some x) (some ((1 : ℝ) / 2.4)))) (some 0.055)

/-- `tonemap` over `FNum`. -/
def tonemapF (x : FNum) : FNum :=
  divF (mulF x (addF (mulF (some toneA) x) (some toneB)))
    (addF (mulF x (addF (mulF (some toneC) x) (some toneD))) (some toneE))

/-- `clamp` over `FNum`: both comparisons are false for NaN, so the
NaN value itself is returned. -/
def clampF (lo hi : ℝ) : FNum → FNum
  | none => none
  | some x => some (clamp lo hi x)

/-- `Math.round` over `FNum`: `Math.round(NaN)` is NaN. -/
def jsRoundF : FNum → Option ℤ
  | none => none
  | some x => some (jsRound x)

/-- `hdrToSdr` over `FNum`: the same statement sequence as the
exact-real `hdrToSdr`, with every operation propagating non-finite
values the way the JavaScript number type does. -/
def hdrToSdrF (r g b intensity exposure contrast saturation
    highlightCompression shadowLifting : FNum) :
    Option ℤ × Option ℤ × Option ℤ :=
  let r1 := sRGBToLinearF (divF r (some 255))
  let g1 := sRGBToLinearF (divF g (some 255))
  let b1 := sRGBToLinearF (divF b (some 255))
  let ie := mulF intensity exposure
  let r2 := mulF r1 ie
  let g2 := mulF g1 ie
  let b2 := mulF b1 ie
  let r3 := powF r2 contrast
  let g3 := powF g2 contrast
  let b3 := powF b2 contrast
  let r4 := addF (tonemapF (mulF r3 highlightCompression)) shadowLifting
  let g4 := addF (tonemapF (mulF g3 highlightCompression)) shadowLifting
  let b4 := addF (tonemapF (mulF b3 highlightCompression)) shadowLifting
  let luminance := addF (addF (mulF (some 0.2126) r4) (mulF (some 0.7152) g4))
    (mulF (some 0.0722) b4)
  let r5 := addF luminance (mulF saturation (subF r4 luminance))
  let g5 := addF luminance (mulF saturation (subF g4 luminance))
  let b5 := addF luminance (mulF saturation (subF b4 luminance))
  let r6 := clampF 0 1 r5
  let g6 := clampF 0 1 g5
  let b6 := clampF 0 1 b5
  let r7 := linearToSRGBF r6
  let g7 := linearToSRGBF g6
  let b7 := linearToSRGBF b6
  (jsRoundF (mulF r7 (some 255)), jsRoundF (mulF g7 (some 255)),
    jsRoundF (mulF b7 (some 255)))

end

instance {ε α : Type} [DecidableEq ε] [DecidableEq α] :
    DecidableEq (Except ε α) := fun a b =>
  match a, b with
  | .ok x, .ok y =>
    if h : x = y then .isTrue (by rw [h]) else .isFalse (fun hh => h (Except.ok.inj hh))
  | .error x, .error y =>
    if h : x = y then .isTrue (by rw [h]) else .isFalse (fun hh => h (Except.error.inj hh))
  | .ok _, .error _ => .isFalse (fun hh => Except.noConfusion hh)
  | .error _, .ok _ => .isFalse (fun hh => Except.noConfusion hh)

/-! ## Helper lemmas about byte buffers -/

theorem length_set_eq (l : List ℕ) (i v : ℕ) : (l.set i v).length = l.length :=
  List.length_set l i v

theorem getB_set_eq (l : List ℕ) (i v : ℕ) (h : i < l.length) :
    getB (l.set i v) i = v := by
  simp [getB, List.getD, List.getElem?_set_self, h]

theorem getB_set_ne (l : List ℕ) (i j v : ℕ) (h : i ≠ j) :
    getB (l.set i v) j = getB l j := by
  simp [getB, List.getD, List.getElem?_set_ne h]

/-! ## Swizzle: C1 and C8 -/

theorem channelIndexes_le {c : String} {k : ℕ}
    (h : channelIndexes c = some k) : k ≤ 3 := by
  unfold channelIndexes at h
  split_ifs at h <;> simp_all <;> omega

theorem channelIndexes_inj {a b : String} {k : ℕ}
    (ha : channelIndexes a = some k) (hb : channelIndexes b = some k) : a = b := by
  unfold channelIndexes at ha hb
  split_ifs at ha hb <;> simp_all <;> omega

theorem swizzleGo_cons (snap : String → Option ℕ) (i : ℕ) (cur : List ℕ)
    (e : String × String) (rest : List (String × String)) :
    swizzleGo snap i cur (e :: rest) =
      match channelIndexes e.2 with
      | some k => swizzleGo snap i (cur.set (i + k) (byteOf (snap e.1))) rest
      | none => Except.error "unsupported data channel in swizzle" := by
  unfold channelIndexes
  by_cases h1 : e.2 = "R"
  · simp [swizzleGo, h1]
  by_cases h2 : e.2 = "G"
  · simp [swizzleGo, h1, h2]
  by_cases h3 : e.2 = "B"
  · simp [swizzleGo, h1, h2, h3]
  by_cases h4 : e.2 = "A"
  · simp [swizzleGo, h1, h2, h3, h4]
  · simp [swizzleGo, h1, h2, h3, h4]

theorem swizzleGo_ok_length (snap : String → Option ℕ) (i : ℕ) :
    ∀ (opts : List (String × String)) (cur out : List ℕ),
      swizzleGo snap i cur opts = Except.ok out → out.length = cur.length := by
  intro opts
  induction opts with
  | nil => intro cur out h; simp [swizzleGo] at h; rw [h]
  | cons e rest ih =>
    intro cur out h
    rw [swizzleGo_cons] at h
    cases hc : channelIndexes e.2 with
    | none => rw [hc] at h; exact absurd h (by simp)
    | some k =>
      rw [hc] at h
      exact (ih _ _ h).trans (List.length_set _ _ _)

theorem swizzleGo_untouched (snap : String → Option ℕ) (i : ℕ) :
    ∀ (opts : List (String × String)) (cur out : List ℕ),
      swizzleGo snap i cur opts = Except.ok out →
      ∀ j : ℕ, (∀ e ∈ opts, ∀ k, channelIndexes e.2 = some k → j ≠ i + k) →
      getB out j = getB cur j := by
  intro opts
  induction opts with
  | nil => intro cur out h j _; simp [swizzleGo] at h; rw [h]
  | cons e rest ih =>
    intro cur out h j hj
    rw [swizzleGo_cons] at h
    cases hc : channelIndexes e.2 with
    | none => rw [hc] at h; exact absurd h (by simp)
    | some k =>
      rw [hc] at h
      have h1 := ih _ _ h j (fun e' he' => hj e' (List.mem_cons_of_mem _ he'))
      rw [h1, getB_set_ne]
      exact fun hik => (hj e (List.mem_cons_self _ _) k hc) hik.symm

theorem swizzleGo_writes (snap : String → Option ℕ) (i : ℕ) :
    ∀ (opts : List (String × String)) (cur out : List ℕ),
      swizzleGo snap i cur opts = Except.ok out →
      (opts.map Prod.snd).Nodup →
      ∀ e ∈ opts, ∀ k, channelIndexes e.2 = some k → i + k < cur.length →
      getB out (i + k) = byteOf (snap e.1) := by
  intro opts
  induction opts with
  | nil => intro cur out _ _ e he; exact absurd he (List.not_mem_nil e)
  | cons e0 rest ih =>
    intro cur out h hnd e he k hk hlt
    rw [swizzleGo_cons] at h
    cases hc : channelIndexes e0.2 with
    | none => rw [hc] at h; exact absurd h (by simp)
    | some k0 =>
      rw [hc] at h
      rcases List.mem_cons.mp he with rfl | he'
      · have hk0 : k0 = k := by rw [hk] at hc; exact (Option.some.inj hc).symm
        subst hk0
        have huntouched : getB out (i + k0) = getB (cur.set (i + k0) (byteOf (snap e.1))) (i + k0) := by
          refine swizzleGo_untouched snap i rest _ _ h (i + k0) ?_
          intro e' he' k' hk' hik
          have hkk : k' = k0 := by omega
          subst hkk
          have : e'.2 = e.2 := channelIndexes_inj hk' hk
          have hnotmem := (List.nodup_cons.mp hnd).1
          exact hnotmem (this ▸ List.mem_map_of_mem Prod.snd he')
        rw [huntouched, getB_set_eq _ _ _ hlt]
      · exact ih _ _ h (List.nodup_cons.mp hnd).2 e he' k hk
          (by rw [List.length_set]; exact hlt)

/-- Claim C1 (counterexample): the claim reads the swizzle map with the
key as destination and the value as source; on the pixel
`(10, 20, 30, 40)` with map `{R: "G"}` it predicts the output
`(20, 20, 30, 40)` (destination R receives source G).  The code treats
the key as the source: it writes the R value 10 into channel G,
producing `(10, 10, 30, 40)`. -/
theorem swizzleFrame_key_is_source_cex :
    swizzleFrame [10, 20, 30, 40] [("R", "G")] 0 = Except.ok [10, 10, 30, 40] ∧
    swizzleFrame [10, 20, 30, 40] [("R", "G")] 0 ≠ Except.ok [20, 20, 30, 40] := by
  constructor
  · rfl
  · intro h
    rw [show swizzleFrame [10, 20, 30, 40] [("R", "G")] 0 =
        Except.ok [10, 10, 30, 40] from rfl] at h
    exact absurd (Except.ok.inj h) (by decide)

/-- Claim C1 (amended): for every pixel frame and channel-remap map,
`swizzleFrame` treats each map key as the SOURCE channel and each map
value as the DESTINATION channel; when the declared destinations are
distinct, each declared destination receives the snapshot value of its
declared source, all four original channel values being read before
any write (so chained remaps such as swapping R and B use pre-mutation
values), and undeclared destinations keep their original bytes. -/
theorem swizzleFrame_source_into_destination (d : List ℕ)
    (options : List (String × String)) (i : ℕ) (out : List ℕ)
    (hok : swizzleFrame d options i = Except.ok out)
    (hnd : (options.map Prod.snd).Nodup)
    (hlen : i + 3 < d.length) :
    (∀ e ∈ options, ∀ k, channelIndexes e.2 = some k →
      getB out (i + k) = byteOf (swizzleMap d i e.1)) ∧
    (∀ c k, channelIndexes c = some k → c ∉ options.map Prod.snd →
      getB out (i + k) = getB d (i + k)) := by
  constructor
  · intro e he k hk
    refine swizzleGo_writes (swizzleMap d i) i options d out hok hnd e he k hk ?_
    have := channelIndexes_le hk
    omega
  · intro c k hk hc
    refine swizzleGo_untouched (swizzleMap d i) i options d out hok (i + k) ?_
    intro e he k' hk' hik
    have hkk : k' = k := by omega
    subst hkk
    exact hc ((channelIndexes_inj hk' hk) ▸ List.mem_map_of_mem Prod.snd he)

/-- Witness for `swizzleFrame_source_into_destination`: swapping R and
B on the pixel `(10, 20, 30, 40)` puts the original R value 10 at
destination B and the original B value 30 at destination R. -/
theorem swizzleFrame_source_into_destination_witness :
    getB [30, 20, 10, 40] (0 + 2) = byteOf (swizzleMap [10, 20, 30, 40] 0 "R") ∧
    getB [30, 20, 10, 40] (0 + 0) = byteOf (swizzleMap [10, 20, 30, 40] 0 "B") := by
  have h := swizzleFrame_source_into_destination [10, 20, 30, 40]
    [("R", "B"), ("B", "R")] 0 [30, 20, 10, 40] (by rfl) (by decide) (by decide)
  exact ⟨h.1 ("R", "B") (by decide) 2 (by rfl), h.1 ("B", "R") (by decide) 0 (by rfl)⟩

/-- Claim C8 (counterexample): `mask` does not fail fast on a channel
identifier outside R/G/B/A.  With the invalid channel `"X"` it returns
normally and silently coerces the `undefined` lookup into writing the
byte 0 into the alpha of every base pixel: the opaque base
`(1, 2, 3, 255)` becomes `(1, 2, 3, 0)`. -/
theorem mask_invalid_channel_coerces_cex :
    (maskModel (fun c _ _ => c) ⟨1, 1, [1, 2, 3, 255]⟩ ⟨1, 1, [9, 9, 9, 9]⟩ "X").data
      = [1, 2, 3, 0] := by decide

theorem swizzleGo_invalid_errors (snap : String → Option ℕ) (i : ℕ) :
    ∀ (opts : List (String × String)) (cur : List ℕ),
      (∃ e ∈ opts, channelIndexes e.2 = none) →
      ∃ msg, swizzleGo snap i cur opts = Except.error msg := by
  intro opts
  induction opts with
  | nil => intro cur h; exact absurd h (by simp)
  | cons e0 rest ih =>
    intro cur h
    rw [swizzleGo_cons]
    cases hc : channelIndexes e0.2 with
    | none => exact ⟨_, rfl⟩
    | some k =>
      rcases h with ⟨e, he, hnone⟩
      rcases List.mem_cons.mp he with rfl | he'
      · rw [hc] at hnone; exact absurd hnone (by simp)
      · exact ih _ ⟨e, he', hnone⟩

/-- Claim C8 (amended): only the swizzle operation fails fast on an
invalid channel identifier, and only for destinations: whenever a map
entry declares a destination (map value) outside R/G/B/A,
`swizzleFrame` aborts with an error.  `mask` (and `pack`) perform no
such validation: an invalid channel given to `mask` is silently
coerced into writing 0 into every alpha byte (see the
counterexample). -/
theorem swizzleFrame_invalid_destination_throws (d : List ℕ)
    (options : List (String × String)) (i : ℕ)
    (h : ∃ e ∈ options, channelIndexes e.2 = none) :
    ∃ msg, swizzleFrame d options i = Except.error msg :=
  swizzleGo_invalid_errors (swizzleMap d i) i options d h

/-- Witness for `swizzleFrame_invalid_destination_throws`: the map
`{R: "X"}` declares the invalid destination `"X"` and makes
`swizzleFrame` fail. -/
theorem swizzleFrame_invalid_destination_throws_witness :
    (∃ e ∈ [("R", "X")], channelIndexes e.2 = none) ∧
    ∃ msg, swizzleFrame [10, 20, 30, 40] [("R", "X")] 0 = Except.error msg :=
  ⟨by decide, swizzleFrame_invalid_destination_throws [10, 20, 30, 40]
    [("R", "X")] 0 (by decide)⟩

/-! ## Unpack: C2 and C10 -/

theorem chLoop_length (o₁ o₂ : ℕ) :
    ∀ (n : ℕ) (l : List ℕ), (chLoop o₁ o₂ n l).length = l.length := by
  intro n
  induction n with
  | zero => intro l; rfl
  | succ n ih => intro l; simp [chLoop, chStep, ih]

theorem aLoop_length :
    ∀ (n : ℕ) (l : List ℕ), (aLoop n l).length = l.length := by
  intro n
  induction n with
  | zero => intro l; rfl
  | succ n ih => intro l; simp [aLoop, aStep, ih]

theorem chLoop_high (o₁ o₂ : ℕ) (h₁ : o₁ < 3) (h₂ : o₂ < 3) :
    ∀ (n : ℕ) (l : List ℕ) (j : ℕ), 4 * n ≤ j →
      getB (chLoop o₁ o₂ n l) j = getB l j := by
  intro n
  induction n with
  | zero => intro l j _; rfl
  | succ n ih =>
    intro l j hj
    show getB (chStep o₁ o₂ (chLoop o₁ o₂ n l) n) j = getB l j
    unfold chStep
    rw [getB_set_ne _ _ _ _ (by omega), getB_set_ne _ _ _ _ (by omega),
      getB_set_ne _ _ _ _ (by omega)]
    exact ih l j (by omega)

theorem aLoop_high :
    ∀ (n : ℕ) (l : List ℕ) (j : ℕ), 4 * n ≤ j →
      getB (aLoop n l) j = getB l j := by
  intro n
  induction n with
  | zero => intro l j _; rfl
  | succ n ih =>
    intro l j hj
    show getB (aStep (aLoop n l) n) j = getB l j
    unfold aStep
    rw [getB_set_ne _ _ _ _ (by omega), getB_set_ne _ _ _ _ (by omega),
      getB_set_ne _ _ _ _ (by omega), getB_set_ne _ _ _ _ (by omega)]
    exact ih l j (by omega)

theorem aLoop_three :
    ∀ (n : ℕ) (l : List ℕ), 1 ≤ n → 3 < l.length →
      getB (aLoop n l) 3 = 255 := by
  intro n
  induction n with
  | zero => intro l h; omega
  | succ n ih =>
    intro l _ hl
    show getB (aStep (aLoop n l) n) 3 = 255
    unfold aStep
    rcases Nat.eq_zero_or_pos n with rfl | hn
    · rw [getB_set_eq]
      simp [aLoop, aLoop_length, hl]
    · rw [getB_set_ne _ _ _ _ (by omega), getB_set_ne _ _ _ _ (by omega),
        getB_set_ne _ _ _ _ (by omega), getB_set_ne _ _ _ _ (by omega)]
      exact ih l hn hl

theorem chLoop_val (o₁ o₂ : ℕ) (ho : o₁ < o₂) (h₂ : o₂ < 3) :
    ∀ (n : ℕ) (l : List ℕ) (p : ℕ), p < n → 4 * p + 3 < l.length →
      getB (chLoop o₁ o₂ n l) (4 * p + o₁) = 0 ∧
      getB (chLoop o₁ o₂ n l) (4 * p + o₂) = 0 ∧
      getB (chLoop o₁ o₂ n l) (4 * p + 3) = 255 ∧
      (∀ o, o < 3 → o ≠ o₁ → o ≠ o₂ →
        getB (chLoop o₁ o₂ n l) (4 * p + o) = getB l (4 * p + o)) := by
  intro n
  induction n with
  | zero => intro l p hp; omega
  | succ n ih =>
    intro l p hp hl
    have heq : chLoop o₁ o₂ (n + 1) l =
        (((chLoop o₁ o₂ n l).set (4 * n + o₁) 0).set (4 * n + o₂) 0).set
          (4 * n + 3) 255 := rfl
    rcases Nat.lt_or_ge p n with hpn | hpn
    · have hw : ∀ j, j ≠ 4 * n + o₁ → j ≠ 4 * n + o₂ → j ≠ 4 * n + 3 →
        getB (chLoop o₁ o₂ (n + 1) l) j = getB (chLoop o₁ o₂ n l) j := by
        intro j hj1 hj2 hj3
        rw [heq, getB_set_ne _ _ _ _ (fun hh => hj3 hh.symm),
          getB_set_ne _ _ _ _ (fun hh => hj2 hh.symm),
          getB_set_ne _ _ _ _ (fun hh => hj1 hh.symm)]
      have hmain := ih l p hpn hl
      refine ⟨?_, ?_, ?_, ?_⟩
      · rw [hw (4 * p + o₁) (by omega) (by omega) (by omega)]; exact hmain.1
      · rw [hw (4 * p + o₂) (by omega) (by omega) (by omega)]; exact hmain.2.1
      · rw [hw (4 * p + 3) (by omega) (by omega) (by omega)]; exact hmain.2.2.1
      · intro o ho3 ho1 ho2
        rw [hw (4 * p + o) (by omega) (by omega) (by omega)]
        exact hmain.2.2.2 o ho3 ho1 ho2
    · obtain rfl : p = n := by omega
      have hlen : (chLoop o₁ o₂ p l).length = l.length := chLoop_length _ _ _ _
      have hhigh : ∀ o, o < 4 →
          getB (chLoop o₁ o₂ p l) (4 * p + o) = getB l (4 * p + o) :=
        fun o _ => chLoop_high o₁ o₂ (by omega) h₂ p l _ (by omega)
      rw [heq]
      refine ⟨?_, ?_, ?_, ?_⟩
      · rw [getB_set_ne _ _ _ _ (by omega), getB_set_ne _ _ _ _ (by omega),
          getB_set_eq _ _ _ (by simp only [List.length_set, hlen]; omega)]
      · rw [getB_set_ne _ _ _ _ (by omega),
          getB_set_eq _ _ _ (by simp only [List.length_set, hlen]; omega)]
      · rw [getB_set_eq _ _ _ (by simp only [List.length_set, hlen]; omega)]
      · intro o ho3 ho1 ho2
        rw [getB_set_ne _ _ _ _ (by omega), getB_set_ne _ _ _ _ (by omega),
          getB_set_ne _ _ _ _ (by omega)]
        exact hhigh o (by omega)

theorem aLoop_val :
    ∀ (n : ℕ) (l : List ℕ) (p : ℕ), p < n → 4 * p + 3 < l.length →
      (getB (aLoop n l) (4 * p) = if p = 0 then getB l 3 else 255) ∧
      (getB (aLoop n l) (4 * p + 1) = if p = 0 then getB l 3 else 255) ∧
      (getB (aLoop n l) (4 * p + 2) = if p = 0 then getB l 3 else 255) ∧
      getB (aLoop n l) (4 * p + 3) = 255 := by
  intro n
  induction n with
  | zero => intro l p hp; omega
  | succ n ih =>
    intro l p hp hl
    have heq : aLoop (n + 1) l =
        ((((aLoop n l).set (4 * n) (getB (aLoop n l) 3)).set (4 * n + 1)
          (getB (aLoop n l) 3)).set (4 * n + 2) (getB (aLoop n l) 3)).set
          (4 * n + 3) 255 := rfl
    rcases Nat.lt_or_ge p n with hpn | hpn
    · have hw : ∀ j, j ≠ 4 * n → j ≠ 4 * n + 1 → j ≠ 4 * n + 2 → j ≠ 4 * n + 3 →
        getB (aLoop (n + 1) l) j = getB (aLoop n l) j := by
        intro j hj0 hj1 hj2 hj3
        rw [heq, getB_set_ne _ _ _ _ (fun hh => hj3 hh.symm),
          getB_set_ne _ _ _ _ (fun hh => hj2 hh.symm),
          getB_set_ne _ _ _ _ (fun hh => hj1 hh.symm),
          getB_set_ne _ _ _ _ (fun hh => hj0 hh.symm)]
      have hmain := ih l p hpn hl
      refine ⟨?_, ?_, ?_, ?_⟩
      · rw [hw (4 * p) (by omega) (by omega) (by omega) (by omega)]
        exact hmain.1
      · rw [hw (4 * p + 1) (by omega) (by omega) (by omega) (by omega)]
        exact hmain.2.1
      · rw [hw (4 * p + 2) (by omega) (by omega) (by omega) (by omega)]
        exact hmain.2.2.1
      · rw [hw (4 * p + 3) (by omega) (by omega) (by omega) (by omega)]
        exact hmain.2.2.2
    · obtain rfl : p = n := by omega
      have hlen : (aLoop p l).length = l.length := aLoop_length _ _
      have hv : getB (aLoop p l) 3 = if p = 0 then getB l 3 else 255 := by
        rcases Nat.eq_zero_or_pos p with rfl | hp0
        · simp [aLoop]
        · simp only [if_neg (by omega : ¬ p = 0)]
          exact aLoop_three p l hp0 (by omega)
      rw [heq]
      refine ⟨?_, ?_, ?_, ?_⟩
      · rw [getB_set_ne _ _ _ _ (by omega), getB_set_ne _ _ _ _ (by omega),
          getB_set_ne _ _ _ _ (by omega),
          getB_set_eq _ _ _ (by simp only [List.length_set, hlen]; omega)]
        exact hv
      · rw [getB_set_ne _ _ _ _ (by omega), getB_set_ne _ _ _ _ (by omega),
          getB_set_eq _ _ _ (by simp only [List.length_set, hlen]; omega)]
        exact hv
      · rw [getB_set_ne _ _ _ _ (by omega),
          getB_set_eq _ _ _ (by simp only [List.length_set, hlen]; omega)]
        exact hv
      · rw [getB_set_eq _ _ _ (by simp only [List.length_set, hlen]; omega)]

/-- Claim C2 (counterexample): on the single pixel `(10, 20, 30, 40)`
the claim predicts the R output pixel `(10, 10, 10, 255)` (grayscale:
R, G and B all set to the source R value).  `unpack` in fact zeroes the
other two colour channels, producing `(10, 0, 0, 255)`. -/
theorem unpack_not_grayscale_cex :
    (unpack [10, 20, 30, 40]).1 = [10, 0, 0, 255] ∧
    (unpack [10, 20, 30, 40]).1 ≠ [10, 10, 10, 255] := by decide

/-- Claim C2 (amended): each of the R, G and B buffers produced by
`unpack` keeps, at every pixel, only the selected source channel value
in that channel's own position, sets the other two colour channels to
0, and forces alpha 255 — a single-colour (not grayscale)
visualization of the channel.  (The fourth, alpha-derived output is
described separately: its R, G and B bytes carry the mutated shared
alpha cell, see the claim about the first pixel.)  Consequently,
packing four constant single-channel buffers and unpacking yields
these single-colour buffers, not grayscale ones. -/
theorem unpack_channel_outputs (d : List ℕ) (p : ℕ)
    (h : 4 * p + 3 < d.length) :
    (getB (unpack d).1 (4 * p) = getB d (4 * p) ∧
     getB (unpack d).1 (4 * p + 1) = 0 ∧
     getB (unpack d).1 (4 * p + 2) = 0 ∧
     getB (unpack d).1 (4 * p + 3) = 255) ∧
    (getB (unpack d).2.1 (4 * p) = 0 ∧
     getB (unpack d).2.1 (4 * p + 1) = getB d (4 * p + 1) ∧
     getB (unpack d).2.1 (4 * p + 2) = 0 ∧
     getB (unpack d).2.1 (4 * p + 3) = 255) ∧
    (getB (unpack d).2.2.1 (4 * p) = 0 ∧
     getB (unpack d).2.2.1 (4 * p + 1) = 0 ∧
     getB (unpack d).2.2.1 (4 * p + 2) = getB d (4 * p + 2) ∧
     getB (unpack d).2.2.1 (4 * p + 3) = 255) := by
  have hp : p < (d.length + 3) / 4 := by omega
  have hr := chLoop_val 1 2 (by omega) (by omega) ((d.length + 3) / 4) d p hp h
  have hg := chLoop_val 0 2 (by omega) (by omega) ((d.length + 3) / 4) d p hp h
  have hb := chLoop_val 0 1 (by omega) (by omega) ((d.length + 3) / 4) d p hp h
  refine ⟨⟨?_, ?_, ?_, ?_⟩, ⟨?_, ?_, ?_, ?_⟩, ⟨?_, ?_, ?_, ?_⟩⟩
  · simpa using hr.2.2.2 0 (by omega) (by omega) (by omega)
  · exact hr.1
  · exact hr.2.1
  · exact hr.2.2.1
  · exact hg.1
  · exact hg.2.2.2 1 (by omega) (by omega) (by omega)
  · exact hg.2.1
  · exact hg.2.2.1
  · exact hb.1
  · exact hb.2.1
  · exact hb.2.2.2 2 (by omega) (by omega) (by omega)
  · exact hb.2.2.1

/-- Witness for `unpack_channel_outputs` on the two-pixel buffer
`(10, 20, 30, 40), (50, 60, 70, 80)` at pixel 1. -/
theorem unpack_channel_outputs_witness :
    (4 * 1 + 3 < ([10, 20, 30, 40, 50, 60, 70, 80] : List ℕ).length) ∧
    ((getB (unpack [10, 20, 30, 40, 50, 60, 70, 80]).1 (4 * 1) =
        getB [10, 20, 30, 40, 50, 60, 70, 80] (4 * 1) ∧
      getB (unpack [10, 20, 30, 40, 50, 60, 70, 80]).1 (4 * 1 + 1) = 0 ∧
      getB (unpack [10, 20, 30, 40, 50, 60, 70, 80]).1 (4 * 1 + 2) = 0 ∧
      getB (unpack [10, 20, 30, 40, 50, 60, 70, 80]).1 (4 * 1 + 3) = 255) ∧
     (getB (unpack [10, 20, 30, 40, 50, 60, 70, 80]).2.1 (4 * 1) = 0 ∧
      getB (unpack [10, 20, 30, 40, 50, 60, 70, 80]).2.1 (4 * 1 + 1) =
        getB [10, 20, 30, 40, 50, 60, 70, 80] (4 * 1 + 1) ∧
      getB (unpack [10, 20, 30, 40, 50, 60, 70, 80]).2.1 (4 * 1 + 2) = 0 ∧
      getB (unpack [10, 20, 30, 40, 50, 60, 70, 80]).2.1 (4 * 1 + 3) = 255) ∧
     (getB (unpack [10, 20, 30, 40, 50, 60, 70, 80]).2.2.1 (4 * 1) = 0 ∧
      getB (unpack [10, 20, 30, 40, 50, 60, 70, 80]).2.2.1 (4 * 1 + 1) = 0 ∧
      getB (unpack [10, 20, 30, 40, 50, 60, 70, 80]).2.2.1 (4 * 1 + 2) =
        getB [10, 20, 30, 40, 50, 60, 70, 80] (4 * 1 + 2) ∧
      getB (unpack [10, 20, 30, 40, 50, 60, 70, 80]).2.2.1 (4 * 1 + 3) = 255)) :=
  ⟨by decide, unpack_channel_outputs [10, 20, 30, 40, 50, 60, 70, 80] 1 (by decide)⟩

/-- Claim C10: in the alpha-channel output of `unpack`, only the first
pixel's R, G and B receive that pixel's own original alpha value; every
later pixel's R, G and B receive the constant 255, because the first
iteration overwrites the shared source cell at index 3 with 255 before
later iterations read it. -/
theorem unpack_alpha_first_pixel (d : List ℕ) (p : ℕ)
    (h : 4 * p + 3 < d.length) :
    (getB (unpack d).2.2.2 (4 * p) = if p = 0 then getB d 3 else 255) ∧
    (getB (unpack d).2.2.2 (4 * p + 1) = if p = 0 then getB d 3 else 255) ∧
    (getB (unpack d).2.2.2 (4 * p + 2) = if p = 0 then getB d 3 else 255) ∧
    getB (unpack d).2.2.2 (4 * p + 3) = 255 := by
  have hp : p < (d.length + 3) / 4 := by omega
  exact aLoop_val ((d.length + 3) / 4) d p hp h

/-- Witness for `unpack_alpha_first_pixel` on a two-pixel buffer:
pixel 0 receives the original alpha 40, pixel 1 the constant 255 even
though its own alpha is 80. -/
theorem unpack_alpha_first_pixel_witness :
    (4 * 1 + 3 < ([10, 20, 30, 40, 50, 60, 70, 80] : List ℕ).length) ∧
    ((getB (unpack [10, 20, 30, 40, 50, 60, 70, 80]).2.2.2 (4 * 1) =
        if 1 = 0 then getB [10, 20, 30, 40, 50, 60, 70, 80] 3 else 255) ∧
     (getB (unpack [10, 20, 30, 40, 50, 60, 70, 80]).2.2.2 (4 * 1 + 1) =
        if 1 = 0 then getB [10, 20, 30, 40, 50, 60, 70, 80] 3 else 255) ∧
     (getB (unpack [10, 20, 30, 40, 50, 60, 70, 80]).2.2.2 (4 * 1 + 2) =
        if 1 = 0 then getB [10, 20, 30, 40, 50, 60, 70, 80] 3 else 255) ∧
     getB (unpack [10, 20, 30, 40, 50, 60, 70, 80]).2.2.2 (4 * 1 + 3) = 255) :=
  ⟨by decide, unpack_alpha_first_pixel [10, 20, 30, 40, 50, 60, 70, 80] 1 (by decide)⟩

/-! ## Pack: C3 -/

/-- Claim C3: two one-pixel images both claim destination channel R;
the first maps `{R: "R"}` (value 100), the second `{R: "G"}` (value
201).  The claim says the second claim is dropped and the packed R
byte is 100.  The code instead executes
`delete images[1].channels["G"]` — keyed by the SOURCE channel — which
removes nothing, so the conflicting entry survives the warning and its
write happens last: the packed buffer is `(201, 0, 0, 0)`. -/
theorem pack_conflicting_claim_overwrites :
    pack (fun c _ _ => c)
      [⟨⟨1, 1, [100, 101, 102, 103]⟩, [("R", "R")]⟩,
       ⟨⟨1, 1, [200, 201, 202, 203]⟩, [("R", "G")]⟩] 1 1 = [201, 0, 0, 0] := by
  decide

/-! ## Mask: C9 -/

theorem maskLoop_length (ci : Option ℕ) (md : List ℕ) :
    ∀ (n : ℕ) (bd : List ℕ), (maskLoop ci md n bd).length = bd.length := by
  intro n
  induction n with
  | zero => intro bd; rfl
  | succ n ih => intro bd; simp [maskLoop, ih]

theorem maskLoop_not_alpha (ci : Option ℕ) (md : List ℕ) :
    ∀ (n : ℕ) (bd : List ℕ) (j : ℕ), j % 4 ≠ 3 →
      getB (maskLoop ci md n bd) j = getB bd j := by
  intro n
  induction n with
  | zero => intro bd j _; rfl
  | succ n ih =>
    intro bd j hj
    show getB ((maskLoop ci md n bd).set (4 * n + 3) _) j = getB bd j
    rw [getB_set_ne _ _ _ _ (by omega)]
    exact ih bd j hj

theorem maskLoop_alpha (ci : Option ℕ) (md : List ℕ) :
    ∀ (n : ℕ) (bd : List ℕ) (p : ℕ), p < n → 4 * p + 3 < bd.length →
      getB (maskLoop ci md n bd) (4 * p + 3) =
        match ci with
        | some c => getB md (4 * p + c)
        | none => 0 := by
  intro n
  induction n with
  | zero => intro bd p hp; omega
  | succ n ih =>
    intro bd p hp hl
    have hlen : (maskLoop ci md n bd).length = bd.length := maskLoop_length _ _ _ _
    show getB ((maskLoop ci md n bd).set (4 * n + 3) _) (4 * p + 3) = _
    rcases Nat.lt_or_ge p n with hpn | hpn
    · rw [getB_set_ne _ _ _ _ (by omega)]
      exact ih bd p hpn hl
    · obtain rfl : p = n := by omega
      rw [getB_set_eq _ _ _ (by omega)]

/-- Claim C9: for every base, mask, valid channel and resampling
behaviour of the external resize primitive, `mask` sets the alpha byte
of every base pixel to the designated channel of the (resized when the
dimensions differ, otherwise plain) duplicate of the mask at that
pixel, leaves every R, G and B byte of the base unchanged, and keeps
the base dimensions (the mask duplicate, never the base, is the
operand of the resize). -/
theorem mask_sets_alpha_preserves_rgb (resample : Ctx → ℕ → ℕ → Ctx)
    (base imageMask : Ctx) (channel : String) (ci : ℕ)
    (hch : channelIndexes channel = some ci) (p : ℕ)
    (hp : 4 * p + 3 < base.data.length) :
    getB (maskModel resample base imageMask channel).data (4 * p + 3) =
      getB (if base.w ≠ imageMask.w ∨ base.h ≠ imageMask.h
            then resample imageMask base.w base.h
            else imageMask).data (4 * p + ci) ∧
    (∀ o, o < 3 →
      getB (maskModel resample base imageMask channel).data (4 * p + o) =
        getB base.data (4 * p + o)) ∧
    (maskModel resample base imageMask channel).w = base.w ∧
    (maskModel resample base imageMask channel).h = base.h := by
  refine ⟨?_, ?_, rfl, rfl⟩
  · show getB (maskLoop (channelIndexes channel) _ _ _) _ = _
    rw [maskLoop_alpha _ _ _ _ p (by omega) hp, hch]
  · intro o ho
    show getB (maskLoop (channelIndexes channel) _ _ _) _ = _
    rw [maskLoop_not_alpha _ _ _ _ _ (by omega)]

/-- Witness for `mask_sets_alpha_preserves_rgb`: an opaque 1x1 base
`(1, 2, 3, 255)` masked through channel R of the equal-size mask
`(128, 9, 9, 9)` gets alpha 128 and keeps its RGB. -/
theorem mask_sets_alpha_preserves_rgb_witness :
    (channelIndexes "R" = some 0 ∧
      4 * 0 + 3 < (Ctx.mk 1 1 [1, 2, 3, 255]).data.length) ∧
    (getB (maskModel (fun c _ _ => c) ⟨1, 1, [1, 2, 3, 255]⟩
        ⟨1, 1, [128, 9, 9, 9]⟩ "R").data (4 * 0 + 3) =
      getB (if (Ctx.mk 1 1 [1, 2, 3, 255]).w ≠ (Ctx.mk 1 1 [128, 9, 9, 9]).w ∨
              (Ctx.mk 1 1 [1, 2, 3, 255]).h ≠ (Ctx.mk 1 1 [128, 9, 9, 9]).h
            then (fun c _ _ => c : Ctx → ℕ → ℕ → Ctx) ⟨1, 1, [128, 9, 9, 9]⟩
              (Ctx.mk 1 1 [1, 2, 3, 255]).w (Ctx.mk 1 1 [1, 2, 3, 255]).h
            else ⟨1, 1, [128, 9, 9, 9]⟩).data (4 * 0 + 0) ∧
     (∀ o, o < 3 →
       getB (maskModel (fun c _ _ => c) ⟨1, 1, [1, 2, 3, 255]⟩
          ⟨1, 1, [128, 9, 9, 9]⟩ "R").data (4 * 0 + o) =
         getB (Ctx.mk 1 1 [1, 2, 3, 255]).data (4 * 0 + o)) ∧
     (maskModel (fun c _ _ => c) ⟨1, 1, [1, 2, 3, 255]⟩
        ⟨1, 1, [128, 9, 9, 9]⟩ "R").w = (Ctx.mk 1 1 [1, 2, 3, 255]).w ∧
     (maskModel (fun c _ _ => c) ⟨1, 1, [1, 2, 3, 255]⟩
        ⟨1, 1, [128, 9, 9, 9]⟩ "R").h = (Ctx.mk 1 1 [1, 2, 3, 255]).h) :=
  ⟨⟨by decide, by decide⟩,
    mask_sets_alpha_preserves_rgb (fun c _ _ => c) ⟨1, 1, [1, 2, 3, 255]⟩
      ⟨1, 1, [128, 9, 9, 9]⟩ "R" 0 (by decide) 0 (by decide)⟩

/-! ## Offset: C5 -/

theorem jsFmod_intCast_one (n : ℤ) : jsFmod (n : ℚ) 1 = 0 := by
  unfold jsFmod jsTrunc
  rw [div_one]
  split_ifs with h
  · rw [Int.ceil_intCast]; ring
  · rw [Int.floor_intCast]; ring

/-- Claim C5 (code bug): `offset` normalizes its arguments with
`offset % 1` instead of `offset % dimension`, so every whole-pixel
offset — in particular a shift by 1 pixel or by the full width W — has
zero fractional part and the function returns the context completely
unchanged, contradicting both the claimed wraparound semantics (column
0 moving to the opposite side for a 1-pixel shift) and the JSDoc of
`offset` ("the amount of pixels to shift the image"). -/
theorem offset_whole_pixels_noop (c : FImg) (n m : ℤ) :
    offsetModel c (n : ℚ) (m : ℚ) = c := by
  unfold offsetModel
  rw [jsFmod_intCast_one, jsFmod_intCast_one]
  simp

/-! ## HDR pipeline: C7 and C4 -/

theorem clamp_mem {α : Type} [LinearOrder α] (lo hi x : α) (h : lo ≤ hi) :
    lo ≤ clamp lo hi x ∧ clamp lo hi x ≤ hi := by
  unfold clamp
  split_ifs with h1 h2
  · exact ⟨le_rfl, h⟩
  · exact ⟨h, le_rfl⟩
  · exact ⟨not_lt.mp h1, not_lt.mp h2⟩

theorem linearToSRGB_mem (x : ℝ) (h0 : 0 ≤ x) (h1 : x ≤ 1) :
    0 ≤ linearToSRGB x ∧ linearToSRGB x ≤ 1 := by
  unfold linearToSRGB
  split_ifs with hb
  · constructor
    · nlinarith
    · nlinarith
  · push_neg at hb
    have hup : x ^ ((1 : ℝ) / 2.4) ≤ 1 := Real.rpow_le_one h0 h1 (by norm_num)
    have hkey : (11 : ℝ) / 211 ≤ x ^ ((1 : ℝ) / 2.4) := by
      have c0 : (0 : ℝ) ≤ 11 / 211 := by norm_num
      have a0 : (0 : ℝ) ≤ 0.0031308 := by norm_num
      have h2 : ((11 : ℝ) / 211) ^ ((12 : ℝ) / 5) ≤ 0.0031308 := by
        have e1 : ((11 : ℝ) / 211) ^ ((12 : ℝ) / 5) =
            (((11 : ℝ) / 211) ^ (12 : ℕ)) ^ ((1 : ℝ) / 5) := by
          rw [← Real.rpow_natCast ((11 : ℝ) / 211) 12, ← Real.rpow_mul c0]
          norm_num
        have h3 : ((11 : ℝ) / 211) ^ (12 : ℕ) ≤ (0.0031308 : ℝ) ^ (5 : ℕ) := by
          norm_num
        rw [e1]
        calc (((11 : ℝ) / 211) ^ (12 : ℕ)) ^ ((1 : ℝ) / 5)
            ≤ ((0.0031308 : ℝ) ^ (5 : ℕ)) ^ ((1 : ℝ) / 5) :=
              Real.rpow_le_rpow (by positivity) h3 (by norm_num)
          _ = 0.0031308 := by
              rw [← Real.rpow_natCast (0.0031308 : ℝ) 5, ← Real.rpow_mul a0]
              norm_num
      have hexp : (1 : ℝ) / 2.4 = 5 / 12 := by norm_num
      rw [hexp]
      calc (11 : ℝ) / 211
          = (((11 : ℝ) / 211) ^ ((12 : ℝ) / 5)) ^ ((5 : ℝ) / 12) := by
            rw [← Real.rpow_mul c0,
              show (12 : ℝ) / 5 * (5 / 12) = 1 by norm_num, Real.rpow_one]
        _ ≤ (0.0031308 : ℝ) ^ ((5 : ℝ) / 12) :=
            Real.rpow_le_rpow (by positivity) h2 (by norm_num)
        _ ≤ x ^ ((5 : ℝ) / 12) :=
            Real.rpow_le_rpow (by norm_num) hb.le (by norm_num)
    constructor
    · linarith
    · linarith

theorem jsRound_byte_mem (y : ℝ) (h0 : 0 ≤ y) (h1 : y ≤ 1) :
    0 ≤ jsRound (y * 255) ∧ jsRound (y * 255) ≤ 255 := by
  unfold jsRound
  constructor
  · exact Int.le_floor.mpr (by push_cast; linarith)
  · have hf : (⌊y * 255 + 1 / 2⌋ : ℤ) < 256 := Int.floor_lt.mpr (by push_cast; linarith)
    omega

theorem half_not_intCast : ¬ ∃ n : ℤ, (1 / 2 : ℝ) = (n : ℝ) := by
  rintro ⟨n, hn⟩
  have h2 : (2 : ℝ) * (n : ℝ) = 1 := by rw [← hn]; norm_num
  have h3 : (2 * n : ℤ) = 1 := by exact_mod_cast h2
  omega

theorem powF_neg_half (b : ℝ) (hb : b < 0) :
    powF (some b) (some (1 / 2 : ℝ)) = none := by
  simp only [powF]
  rw [if_neg (by norm_num), if_neg (by intro h; rw [h] at hb; exact absurd hb (lt_irrefl 0)),
    if_pos ⟨hb, half_not_intCast⟩]

theorem linearToSRGBF_some (y : ℝ) :
    linearToSRGBF (some y) = some (linearToSRGB y) := by
  simp only [linearToSRGBF, linearToSRGB]
  split_ifs with hb
  · rfl
  · push_neg at hb
    have hby : (0 : ℝ) < y := lt_trans (by norm_num) hb
    have hp : powF (some y) (some ((1 : ℝ) / 2.4)) = some (y ^ ((1 : ℝ) / 2.4)) := by
      simp only [powF]
      rw [if_neg (by norm_num), if_neg (ne_of_gt hby),
        if_neg (fun hcon => absurd hcon.1 (not_lt.mpr hby.le))]
    rw [hp]
    rfl

theorem byte_or_none_pipe (X : FNum) :
    jsRoundF (mulF (linearToSRGBF (clampF 0 1 X)) (some 255)) = none ∨
    ∃ z : ℤ, jsRoundF (mulF (linearToSRGBF (clampF 0 1 X)) (some 255)) = some z ∧
      0 ≤ z ∧ z ≤ 255 := by
  cases X with
  | none => left; rfl
  | some x =>
    right
    have hc := clamp_mem (0 : ℝ) 1 x (by norm_num)
    rw [show clampF 0 1 (some x) = some (clamp 0 1 x) from rfl,
      linearToSRGBF_some _]
    have hl := linearToSRGB_mem _ hc.1 hc.2
    have hj := jsRound_byte_mem _ hl.1 hl.2
    exact ⟨jsRound (linearToSRGB (clamp 0 1 x) * 255), rfl, hj.1, hj.2⟩

/-- Claim C7 (amended): `hdrToSdr` has no error conditions: it returns
normally for every numeric input, and negative or overflowing real
intermediate results are clamped to `[0, 1]` rather than rejected; but
the byte-range guarantee is only NaN-or-byte: each component of the
returned triple is either a non-finite value (NaN) or an integer in
`[0, 255]`.  Inputs that drive `Math.pow` to a negative base with a
fractional exponent (or to another non-finite intermediate) make NaN
pass the clamp unchanged, and those components come back NaN, not
byte-range integers (see the counterexample). -/
theorem hdrToSdrF_components_byte_or_nan (r g b intensity exposure contrast
    saturation highlightCompression shadowLifting : FNum) :
    ((hdrToSdrF r g b intensity exposure contrast saturation
        highlightCompression shadowLifting).1 = none ∨
      ∃ z : ℤ, (hdrToSdrF r g b intensity exposure contrast saturation
        highlightCompression shadowLifting).1 = some z ∧ 0 ≤ z ∧ z ≤ 255) ∧
    ((hdrToSdrF r g b intensity exposure contrast saturation
        highlightCompression shadowLifting).2.1 = none ∨
      ∃ z : ℤ, (hdrToSdrF r g b intensity exposure contrast saturation
        highlightCompression shadowLifting).2.1 = some z ∧ 0 ≤ z ∧ z ≤ 255) ∧
    ((hdrToSdrF r g b intensity exposure contrast saturation
        highlightCompression shadowLifting).2.2 = none ∨
      ∃ z : ℤ, (hdrToSdrF r g b intensity exposure contrast saturation
        highlightCompression shadowLifting).2.2 = some z ∧ 0 ≤ z ∧ z ≤ 255) := by
  simp only [hdrToSdrF]
  exact ⟨byte_or_none_pipe _, byte_or_none_pipe _, byte_or_none_pipe _⟩

/-- Claim C7 (counterexample): the claim promises byte-range integer
components for every numeric input, negative and extreme parameters
included.  On `hdrToSdr(128, 128, 128, -1, 1, 0.5, 1, 1, 0)` the
contrast power receives the negative base
`sRGBToLinear(128/255) * (-1)` with the fractional exponent `0.5`, so
`Math.pow` returns NaN; NaN passes the `[0, 1]` clamp (both
comparisons are false) and all three returned components are NaN, not
integers in `[0, 255]`. -/
theorem hdrToSdrF_nan_cex :
    hdrToSdrF (some 128) (some 128) (some 128) (some (-1)) (some 1)
      (some (1 / 2)) (some 1) (some 1) (some 0) = (none, none, none) ∧
    ¬ ∃ z : ℤ, (hdrToSdrF (some 128) (some 128) (some 128) (some (-1)) (some 1)
      (some (1 / 2)) (some 1) (some 1) (some 0)).1 = some z ∧
      0 ≤ z ∧ z ≤ 255 := by
  have ht : (0 : ℝ) < (((128 : ℝ) / 255 + 0.055) / 1.055) ^ (2.4 : ℝ) :=
    Real.rpow_pos_of_pos (by norm_num) _
  have hdec : sRGBToLinearF (some ((128 : ℝ) / 255)) =
      some ((((128 : ℝ) / 255 + 0.055) / 1.055) ^ (2.4 : ℝ)) := by
    simp only [sRGBToLinearF]
    rw [if_neg (by norm_num)]
    simp only [powF]
    rw [if_neg (by norm_num), if_neg (by norm_num),
      if_neg (fun hcon => absurd hcon.1 (by norm_num))]
  have hpow : powF (some ((((128 : ℝ) / 255 + 0.055) / 1.055) ^ (2.4 : ℝ) *
      (-1 * 1))) (some (1 / 2 : ℝ)) = none :=
    powF_neg_half _ (by nlinarith [ht])
  have hmain : hdrToSdrF (some 128) (some 128) (some 128) (some (-1)) (some 1)
      (some (1 / 2)) (some 1) (some 1) (some 0) = (none, none, none) := by
    simp only [hdrToSdrF]
    rw [show divF (some (128 : ℝ)) (some 255) = some ((128 : ℝ) / 255) by
      simp only [divF]; rw [if_neg (by norm_num)]]
    rw [hdec]
    rw [show mulF (some (-1 : ℝ)) (some 1) = some ((-1 : ℝ) * 1) from rfl]
    rw [show mulF (some ((((128 : ℝ) / 255 + 0.055) / 1.055) ^ (2.4 : ℝ)))
        (some ((-1 : ℝ) * 1)) =
      some ((((128 : ℝ) / 255 + 0.055) / 1.055) ^ (2.4 : ℝ) * (-1 * 1)) from rfl]
    rw [hpow]
    rfl
  refine ⟨hmain, ?_⟩
  rintro ⟨z, hz, _⟩
  rw [hmain] at hz
  exact Option.noConfusion hz

/-- Claim C4: `hdrToSdr` applies per channel the fixed decode /
intensity-exposure / contrast / highlight-compressed filmic tonemap
plus shadow lifting / luminance-based saturation / clamp / encode /
byte-rounding sequence; the filmic curve is
`f(x) = x(Ax+B) / (x(Cx+D)+E)` with `A = 2.51`, `B = 0.03`, `C = 2.43`,
`D = 0.59`, `E = 0.14`; with intensity 1 and all other parameters at
their defaults the pipeline reduces per channel to decode, the filmic
curve, clamp and encode only, and in particular maps black `(0, 0, 0)`
to `(0, 0, 0)`. -/
theorem hdrToSdr_identity_filmic :
    (∀ x : ℝ, tonemap x =
      (x * (2.51 * x + 0.03)) / (x * (2.43 * x + 0.59) + 0.14)) ∧
    (∀ r g b : ℝ, hdrToSdr r g b 1 1 1 1 1 0 =
      (jsRound (linearToSRGB (clamp 0 1 (tonemap (sRGBToLinear (r / 255)))) * 255),
       jsRound (linearToSRGB (clamp 0 1 (tonemap (sRGBToLinear (g / 255)))) * 255),
       jsRound (linearToSRGB (clamp 0 1 (tonemap (sRGBToLinear (b / 255)))) * 255))) ∧
    hdrToSdr 0 0 0 1 1 1 1 1 0 = (0, 0, 0) := by
  have satId : ∀ L y : ℝ, L + 1 * (y - L) = y := fun L y => by ring
  have addSub : ∀ L y : ℝ, L + (y - L) = y := fun L y => by ring
  have hmain : ∀ r g b : ℝ, hdrToSdr r g b 1 1 1 1 1 0 =
      (jsRound (linearToSRGB (clamp 0 1 (tonemap (sRGBToLinear (r / 255)))) * 255),
       jsRound (linearToSRGB (clamp 0 1 (tonemap (sRGBToLinear (g / 255)))) * 255),
       jsRound (linearToSRGB (clamp 0 1 (tonemap (sRGBToLinear (b / 255)))) * 255)) := by
    intro r g b
    simp only [hdrToSdr, mul_one, one_mul, add_zero, Real.rpow_one, satId, addSub]
  refine ⟨fun x => rfl, hmain, ?_⟩
  rw [hmain 0 0 0]
  have h1 : sRGBToLinear (0 / 255) = 0 := by
    unfold sRGBToLinear
    norm_num
  have h2 : tonemap 0 = 0 := by
    unfold tonemap toneA toneB toneC toneD toneE
    norm_num
  have h3 : clamp (0 : ℝ) 1 0 = 0 := by
    unfold clamp
    norm_num
  have h4 : linearToSRGB 0 = 0 := by
    unfold linearToSRGB
    norm_num
  have h5 : jsRound (0 * 255) = 0 := by
    unfold jsRound
    rw [Int.floor_eq_iff]
    constructor <;> norm_num
  rw [h1, h2, h3, h4, h5]

/-! ## Tint: C6 -/

theorem tint2Mult_eq_div (m : ℝ) (h : 0 ≤ m) : tint2Mult m = m / 255 := by
  unfold tint2Mult
  split_ifs with h1
  · rfl
  · have hm : m = 0 := le_antisymm (not_lt.mp h1) h
    rw [hm]
    norm_num

theorem tintNeg_eq (ch : ℕ) (m : ℝ) (h : m < 0) :
    lerp ch (255 - (ch : ℝ)) (tint2Mult (-m)) =
      (ch : ℝ) + ((255 - (ch : ℝ)) - ch) * (-m / 255) := by
  unfold lerp
  rw [tint2Mult_eq_div (-m) (by linarith)]

theorem tintWriteStep (dd : List ℕ) (m : ℝ) (j : ℕ) :
    (if m < 0 then
      dd.set j (toUint8Clamp (clamp 0 255
        (lerp (getB dd j) (255 - (getB dd j : ℝ)) (tint2Mult (-m)))))
    else
      dd.set j (toUint8Clamp (clamp 0 255
        ((jsRound ((getB dd j : ℝ) * tint2Mult m) : ℤ) : ℝ)))) =
    dd.set j (tintChannelSpec (getB dd j) m) := by
  unfold tintChannelSpec
  split_ifs with hm
  · rw [tintNeg_eq _ _ hm]
  · rw [tint2Mult_eq_div m (not_lt.mp hm)]

/-- Claim C6: `tintFrame` transforms each of R, G, B independently: a
negative multiplier interpolates the channel toward its inverse
`255 - ch` by `|m| / 255`, a non-negative multiplier scales the channel
by `m / 255` and rounds (both landing in the byte store through the
`[0, 255]` clamp); afterwards, exactly when the intensity parameter
differs from 1, the three freshly stored bytes are passed through the
`hdrToSdr` pipeline with that intensity (remaining parameters at their
defaults); the alpha byte is never modified. -/
theorem tintFrame_per_channel (d : List ℕ) (r g b int : ℝ) (i : ℕ)
    (h : i + 2 < d.length) :
    getB (tintFrame d r g b int i) (i + 3) = getB d (i + 3) ∧
    (int = 1 →
      getB (tintFrame d r g b int i) i = tintChannelSpec (getB d i) r ∧
      getB (tintFrame d r g b int i) (i + 1) = tintChannelSpec (getB d (i + 1)) g ∧
      getB (tintFrame d r g b int i) (i + 2) = tintChannelSpec (getB d (i + 2)) b) ∧
    (int ≠ 1 →
      getB (tintFrame d r g b int i) i =
        toUint8Clamp ((hdrToSdr (tintChannelSpec (getB d i) r)
          (tintChannelSpec (getB d (i + 1)) g) (tintChannelSpec (getB d (i + 2)) b)
          int exposureDefault contrastDefault saturationDefault
          highlightCompressionDefault shadowLiftingDefault).1 : ℝ) ∧
      getB (tintFrame d r g b int i) (i + 1) =
        toUint8Clamp ((hdrToSdr (tintChannelSpec (getB d i) r)
          (tintChannelSpec (getB d (i + 1)) g) (tintChannelSpec (getB d (i + 2)) b)
          int exposureDefault contrastDefault saturationDefault
          highlightCompressionDefault shadowLiftingDefault).2.1 : ℝ) ∧
      getB (tintFrame d r g b int i) (i + 2) =
        toUint8Clamp ((hdrToSdr (tintChannelSpec (getB d i) r)
          (tintChannelSpec (getB d (i + 1)) g) (tintChannelSpec (getB d (i + 2)) b)
          int exposureDefault contrastDefault saturationDefault
          highlightCompressionDefault shadowLiftingDefault).2.2 : ℝ)) := by
  simp only [tintFrame]
  rw [tintWriteStep d r i]
  rw [tintWriteStep (d.set i (tintChannelSpec (getB d i) r)) g (i + 1)]
  rw [getB_set_ne d i (i + 1) (tintChannelSpec (getB d i) r) (by omega)]
  rw [tintWriteStep ((d.set i (tintChannelSpec (getB d i) r)).set (i + 1)
    (tintChannelSpec (getB d (i + 1)) g)) b (i + 2)]
  rw [getB_set_ne _ (i + 1) (i + 2) (tintChannelSpec (getB d (i + 1)) g) (by omega)]
  rw [getB_set_ne d i (i + 2) (tintChannelSpec (getB d i) r) (by omega)]
  by_cases hint : int = 1
  · rw [if_neg (by simp [hint])]
    refine ⟨?_, fun _ => ⟨?_, ?_, ?_⟩, fun hne => absurd hint hne⟩
    · rw [getB_set_ne _ _ _ _ (by omega), getB_set_ne _ _ _ _ (by omega),
        getB_set_ne _ _ _ _ (by omega)]
    · rw [getB_set_ne _ _ _ _ (by omega), getB_set_ne _ _ _ _ (by omega),
        getB_set_eq _ _ _ (by omega)]
    · rw [getB_set_ne _ _ _ _ (by omega),
        getB_set_eq _ _ _ (by simp only [List.length_set]; omega)]
    · rw [getB_set_eq _ _ _ (by simp only [List.length_set]; omega)]
  · rw [if_pos (by simp [hint])]
    have e0 : getB (((d.set i (tintChannelSpec (getB d i) r)).set (i + 1)
        (tintChannelSpec (getB d (i + 1)) g)).set (i + 2)
        (tintChannelSpec (getB d (i + 2)) b)) i = tintChannelSpec (getB d i) r := by
      rw [getB_set_ne _ _ _ _ (by omega), getB_set_ne _ _ _ _ (by omega),
        getB_set_eq _ _ _ (by omega)]
    have e1 : getB (((d.set i (tintChannelSpec (getB d i) r)).set (i + 1)
        (tintChannelSpec (getB d (i + 1)) g)).set (i + 2)
        (tintChannelSpec (getB d (i + 2)) b)) (i + 1) =
        tintChannelSpec (getB d (i + 1)) g := by
      rw [getB_set_ne _ _ _ _ (by omega),
        getB_set_eq _ _ _ (by simp only [List.length_set]; omega)]
    have e2 : getB (((d.set i (tintChannelSpec (getB d i) r)).set (i + 1)
        (tintChannelSpec (getB d (i + 1)) g)).set (i + 2)
        (tintChannelSpec (getB d (i + 2)) b)) (i + 2) =
        tintChannelSpec (getB d (i + 2)) b := by
      rw [getB_set_eq _ _ _ (by simp only [List.length_set]; omega)]
    rw [e0, e1, e2]
    refine ⟨?_, fun heq => absurd heq hint, fun _ => ⟨?_, ?_, ?_⟩⟩
    · rw [getB_set_ne _ _ _ _ (by omega), getB_set_ne _ _ _ _ (by omega),
        getB_set_ne _ _ _ _ (by omega), getB_set_ne _ _ _ _ (by omega),
        getB_set_ne _ _ _ _ (by omega), getB_set_ne _ _ _ _ (by omega)]
    · rw [getB_set_ne _ _ _ _ (by omega), getB_set_ne _ _ _ _ (by omega),
        getB_set_eq _ _ _ (by simp only [List.length_set]; omega)]
    · rw [getB_set_ne _ _ _ _ (by omega),
        getB_set_eq _ _ _ (by simp only [List.length_set]; omega)]
    · rw [getB_set_eq _ _ _ (by simp only [List.length_set]; omega)]

/-- Witness for `tintFrame_per_channel` on the pixel `(10, 20, 30, 40)`
with multipliers `(128, 255, 0)` and intensity 1. -/
theorem tintFrame_per_channel_witness :
    ((0 : ℕ) + 2 < ([10, 20, 30, 40] : List ℕ).length) ∧
    (getB (tintFrame [10, 20, 30, 40] 128 255 0 1 0) (0 + 3) =
        getB [10, 20, 30, 40] (0 + 3) ∧
      ((1 : ℝ) = 1 →
        getB (tintFrame [10, 20, 30, 40] 128 255 0 1 0) 0 =
          tintChannelSpec (getB [10, 20, 30, 40] 0) 128 ∧
        getB (tintFrame [10, 20, 30, 40] 128 255 0 1 0) (0 + 1) =
          tintChannelSpec (getB [10, 20, 30, 40] (0 + 1)) 255 ∧
        getB (tintFrame [10, 20, 30, 40] 128 255 0 1 0) (0 + 2) =
          tintChannelSpec (getB [10, 20, 30, 40] (0 + 2)) 0) ∧
      ((1 : ℝ) ≠ 1 →
        getB (tintFrame [10, 20, 30, 40] 128 255 0 1 0) 0 =
          toUint8Clamp ((hdrToSdr (tintChannelSpec (getB [10, 20, 30, 40] 0) 128)
            (tintChannelSpec (getB [10, 20, 30, 40] (0 + 1)) 255)
            (tintChannelSpec (getB [10, 20, 30, 40] (0 + 2)) 0)
            1 exposureDefault contrastDefault saturationDefault
            highlightCompressionDefault shadowLiftingDefault).1 : ℝ) ∧
        getB (tintFrame [10, 20, 30, 40] 128 255 0 1 0) (0 + 1) =
          toUint8Clamp ((hdrToSdr (tintChannelSpec (getB [10, 20, 30, 40] 0) 128)
            (tintChannelSpec (getB [10, 20, 30, 40] (0 + 1)) 255)
            (tintChannelSpec (getB [10, 20, 30, 40] (0 + 2)) 0)
            1 exposureDefault contrastDefault saturationDefault
            highlightCompressionDefault shadowLiftingDefault).2.1 : ℝ) ∧
        getB (tintFrame [10, 20, 30, 40] 128 255 0 1 0) (0 + 2) =
          toUint8Clamp ((hdrToSdr (tintChannelSpec (getB [10, 20, 30, 40] 0) 128)
            (tintChannelSpec (getB [10, 20, 30, 40] (0 + 1)) 255)
            (tintChannelSpec (getB [10, 20, 30, 40] (0 + 2)) 0)
            1 exposureDefault contrastDefault saturationDefault
            highlightCompressionDefault shadowLiftingDefault).2.2 : ℝ))) :=
  ⟨by decide, tintFrame_per_channel [10, 20, 30, 40] 128 255 0 1 0 (by decide)⟩

end CanvasShaderExt
